import Mathlib

/-!
Shallow embedding of the ACA HHS-HCC risk score engine
(`src/ra_calculators/aca_risk_score_calculator/{models,calculator,table_loader}.py`
and `src/ra_calculators/aca_risk_calculator/hierarchies.py`).

Python dictionaries become association lists (`List (key × value)`), Python
sets become `Finset String`, floats become `Rat` (the scoring arithmetic is
plain addition of looked-up table values, which rationals model exactly),
and code that can raise becomes `Except String`.
-/

deriving instance DecidableEq for Except

namespace Prism

/-- Python `dict.get`: first binding of the key in an association list. -/
def dictGet {α β : Type} [DecidableEq α] (k : α) : List (α × β) → Option β
  | [] => none
  | (k2, v) :: rest => if k2 = k then some v else dictGet k rest

/-- Python `d[k] = v`: replace the value in place if the key exists
(keeping its position, as CPython dicts do), else append a new binding. -/
def dictSet {α β : Type} [DecidableEq α] (m : List (α × β)) (k : α) (v : β) :
    List (α × β) :=
  if k ∈ m.map Prod.fst then
    m.map (fun p => if p.1 = k then (k, v) else p)
  else m ++ [(k, v)]

/-- Does the first list occur at the head of the second? -/
def listStartsWith : List Char → List Char → Bool
  | [], _ => true
  | _ :: _, [] => false
  | p :: ps, c :: cs => p = c && listStartsWith ps cs

/-- Loop of `pyReplace`: left-to-right non-overlapping replacement; the fuel
is the string length (each step consumes at least one character). -/
def pyReplaceLoop (old new : List Char) : Nat → List Char → List Char
  | _, [] => []
  | 0, l => l
  | fuel + 1, c :: rest =>
      if listStartsWith old (c :: rest) then
        new ++ pyReplaceLoop old new fuel (List.drop (old.length - 1) rest)
      else c :: pyReplaceLoop old new fuel rest

/-- Python `str.replace(old, new)` (every call site uses a nonempty `old`). -/
def pyReplace (s old new : String) : String :=
  if old.data.isEmpty then s
  else ⟨pyReplaceLoop old.data new.data s.data.length s.data⟩

/-- Python `str.upper()` on the ASCII range the code tables use. -/
def charUpper (c : Char) : Char :=
  if 'a' ≤ c ∧ c ≤ 'z' then Char.ofNat (c.toNat - 32) else c

/-- Python `str.upper()`. -/
def pyUpper (s : String) : String := ⟨s.data.map charUpper⟩

/-- Python `str.lower()` on the ASCII range the metal levels use. -/
def charLower (c : Char) : Char :=
  if 'A' ≤ c ∧ c ≤ 'Z' then Char.ofNat (c.toNat + 32) else c

/-- Python `str.lower()`. -/
def pyLower (s : String) : String := ⟨s.data.map charLower⟩

/-- Python `str.strip()`: drop whitespace from both ends. -/
def pyTrim (s : String) : String :=
  ⟨((s.data.dropWhile Char.isWhitespace).reverse.dropWhile Char.isWhitespace).reverse⟩

/-- Python `s[:n]`. -/
def pyTake (s : String) (n : Nat) : String := ⟨s.data.take n⟩

/-- Python `s[:-n]` (drop the last `n` characters). -/
def pyDropRight (s : String) (n : Nat) : String :=
  ⟨s.data.take (s.data.length - n)⟩

/-- Python `str.endswith`. -/
def pyEndsWith (s pat : String) : Bool :=
  listStartsWith pat.data.reverse s.data.reverse

/-- Python `str.startswith`. -/
def pyStartsWith (s pat : String) : Bool := listStartsWith pat.data s.data

/-- Loop of `pySplitOn`: split at each occurrence of the separator. -/
def pySplitLoop (sep : List Char) : Nat → List Char → List Char → List (List Char)
  | _, acc, [] => [acc.reverse]
  | 0, acc, l => [acc.reverse ++ l]
  | fuel + 1, acc, c :: rest =>
      if listStartsWith sep (c :: rest) then
        acc.reverse :: pySplitLoop sep fuel [] (List.drop (sep.length - 1) rest)
      else pySplitLoop sep fuel (c :: acc) rest

/-- Python `str.split(sep)` for a nonempty separator. -/
def pySplitOn (s sep : String) : List String :=
  if sep.data.isEmpty then [s]
  else (pySplitLoop sep.data s.data.length [] s.data).map String.mk

/-- Decimal digits of a Nat, most significant first (fuel recursion). -/
def natToDigits : Nat → Nat → List Char
  | 0, _ => []
  | fuel + 1, n =>
      if n < 10 then [Char.ofNat (48 + n)]
      else natToDigits fuel (n / 10) ++ [Char.ofNat (48 + n % 10)]

/-- Python `str(n)` for a natural number. -/
def natToStr (n : Nat) : String := ⟨natToDigits (n + 1) n⟩

/-- Python `str(i)` for an integer. -/
def intToStr (i : Int) : String :=
  match i with
  | .ofNat n => natToStr n
  | .negSucc n => "-" ++ natToStr (n + 1)

/-- Python `str.isdigit()`: nonempty and all characters are digits. -/
def isDigits (s : String) : Bool := !s.data.isEmpty && s.data.all Char.isDigit

/-- Python `str.zfill(width)`: left-pad with zeros to `width`, keeping a
leading sign in front of the padding. -/
def zfill (width : Nat) (s : String) : String :=
  if width ≤ s.data.length then s
  else if pyStartsWith s "-" || pyStartsWith s "+" then
    ⟨s.data.take 1 ++ List.replicate (width - s.data.length) '0' ++ s.data.drop 1⟩
  else ⟨List.replicate (width - s.data.length) '0' ++ s.data⟩

/-- A Python `datetime.date` value (year, month, day). -/
structure PyDate where
  year : Int
  month : Nat
  day : Nat
deriving DecidableEq

/-- The models.py MemberInput record, before validation. -/
structure MemberInput where
  member_id : String
  date_of_birth : PyDate
  gender : String
  metal_level : String
  diagnoses : List String
  ndc_codes : List String
  enrollment_months : Int
deriving DecidableEq

/-- Pydantic construction of `MemberInput` (models.py lines 32-50): `gender`
must match `^[MF]$` and `enrollment_months` must satisfy `ge=1, le=12`;
`metal_level`, `diagnoses` and `ndc_codes` carry no constraints. -/
def MemberInput.construct (member_id : String) (date_of_birth : PyDate)
    (gender metal_level : String) (diagnoses ndc_codes : List String)
    (enrollment_months : Int) : Except String MemberInput :=
  if (gender = "M" ∨ gender = "F") ∧ 1 ≤ enrollment_months ∧ enrollment_months ≤ 12 then
    .ok ⟨member_id, date_of_birth, gender, metal_level, diagnoses, ndc_codes,
      enrollment_months⟩
  else .error "ValidationError"

/-- The `frozen` flag of MemberInput's pydantic configuration: models.py
declares no `model_config`, so pydantic's default `frozen = False` applies. -/
def memberInputFrozen : Bool := false

/-- Pydantic attribute assignment (`member.gender = v`) on a MemberInput
instance: raises ValidationError when the model is frozen, otherwise
replaces the field (models.py also leaves `validate_assignment` at its
default False, so the assignment is not re-validated).  The other fields
behave identically. -/
def MemberInput.setattr_gender (m : MemberInput) (v : String) :
    Except String MemberInput :=
  match memberInputFrozen with
  | true => .error "ValidationError: instance is frozen"
  | false => .ok { m with gender := v }

/-- The models.py ScoreComponent fields (the calculator never sets
`superseded_by`, `supersedes` or `grouped_into`; they keep their defaults). -/
structure ScoreComponent where
  component_type : String
  component_code : String
  description : Option String
  coefficient : Rat
  source_data : List String
  superseded_by : Option String
  supersedes : List String
  grouped_into : Option String
  table_references : List (String × String)
deriving DecidableEq

/-- The regex `^(demographic|hcc|rxc|hcc_group)$` of models.py line 22. -/
def componentTypeOk (t : String) : Bool :=
  t = "demographic" || t = "hcc" || t = "rxc" || t = "hcc_group"

/-- Pydantic construction of `ScoreComponent`: the `component_type` field is
validated against the pattern of models.py line 22; any other string raises
`ValidationError`.  The `description` keyword passed by calculator.py is not
a declared field; pydantic ignores extra keywords by default, but we keep it
as data since it is dropped silently either way (modelled as a field here so
the record carries what the call site supplies). -/
def ScoreComponent.construct (component_type component_code : String)
    (description : Option String) (coefficient : Rat) (source_data : List String)
    (table_references : List (String × String)) : Except String ScoreComponent :=
  match componentTypeOk component_type with
  | true => .ok ⟨component_type, component_code, description, coefficient,
      source_data, none, [], none, table_references⟩
  | false => .error "ValidationError: component_type"

/-- The `details` dictionary of calculator.py lines 581-604, as a record. -/
structure ScoreDetails where
  model : String
  age : Int
  gender : String
  metal_level : String
  enrollment_months : Int
  demographic_variable : String
  demographic_factor : Rat
  raw_ccs : List String
  hccs_after_hierarchy : List String
  hccs_filtered : List String
  remaining_hccs : List String
  triggered_groups : List String
  hcc_cnt : Nat
  edf_variable : Option String
  edf_factor : Rat
  hcc_coefficients : List (String × Rat)
  hcc_score : Rat
  raw_rxcs : List String
  rxcs_after_hierarchy : List String
  rxc_coefficients : List (String × Rat)
  rxc_score : Rat
  model_year : Int
deriving DecidableEq

/-- The models.py ScoreOutput record. -/
structure ScoreOutput where
  member_id : String
  risk_score : Rat
  hcc_list : List String
  details : ScoreDetails
  components : List ScoreComponent
deriving DecidableEq

/-- The reference tables a calculator instance loads in `__init__`
(`table_loader.py`), already parsed: association lists keyed by code. -/
structure RefTables where
  icd_to_cc : List (String × List String)
  hierarchies : List (String × List String)
  coefficients : List ((String × String) × List (String × Rat))
  exclusions : List (String × List String)
  hcc_groups_adult : List (String × List String)
  hcc_groups_child : List (String × List String)
  ndc_to_rxc : List (String × List String)
  rxc_hierarchies : List (String × List String)
  hcc_labels : List (String × String)
  rxc_labels : List (String × String)

/-- calculator.py `_calculate_age`: completed years at `as_of`, clamped at 0. -/
def calculate_age (dob as_of : PyDate) : Int :=
  let age := as_of.year - dob.year
  let age :=
    if as_of.month < dob.month ∨ (as_of.month = dob.month ∧ as_of.day < dob.day) then
      age - 1
    else age
  max 0 age

/-- calculator.py `_get_model_type`. -/
def get_model_type (age : Int) : String :=
  if age ≥ 21 then "Adult" else if age ≥ 2 then "Child" else "Infant"

/-- calculator.py `_get_demographic_variable`. -/
def get_demographic_variable (model gender : String) (age : Int) : String :=
  let pfx := if gender = "M" then "M" else "F"
  if model = "Adult" then
    if age ≤ 24 then pfx ++ "AGE_LAST_21_24"
    else if age ≤ 29 then pfx ++ "AGE_LAST_25_29"
    else if age ≤ 34 then pfx ++ "AGE_LAST_30_34"
    else if age ≤ 39 then pfx ++ "AGE_LAST_35_39"
    else if age ≤ 44 then pfx ++ "AGE_LAST_40_44"
    else if age ≤ 49 then pfx ++ "AGE_LAST_45_49"
    else if age ≤ 54 then pfx ++ "AGE_LAST_50_54"
    else if age ≤ 59 then pfx ++ "AGE_LAST_55_59"
    else pfx ++ "AGE_LAST_60_GT"
  else if model = "Child" then
    if age ≤ 4 then pfx ++ "AGE_LAST_2_4"
    else if age ≤ 9 then pfx ++ "AGE_LAST_5_9"
    else if age ≤ 14 then pfx ++ "AGE_LAST_10_14"
    else pfx ++ "AGE_LAST_15_20"
  else pfx ++ "AGE_LAST_0_1"

/-- calculator.py `_get_coefficient`: 0.0 when the (model, variable) key or
the metal level is missing. -/
def get_coefficient (coefficients : List ((String × String) × List (String × Rat)))
    (model var_name metal_level : String) : Rat :=
  match dictGet (model, var_name) coefficients with
  | none => 0
  | some metals => (dictGet (pyLower metal_level) metals).getD 0

/-- CC normalization of calculator.py lines 204-211: drop a trailing `.0`,
replace remaining dots with underscores. -/
def normalize_cc (cc : String) : String :=
  let cc2 := if pyEndsWith cc ".0" then pyDropRight cc 2 else cc
  pyReplace cc2 "." "_"

/-- Loop body of `_map_diagnoses_to_ccs`: the CCs one diagnosis contributes —
exact match on the cleaned code, else the first hit among its length
6, 5, 4, 3 slices, else nothing. -/
def dx_ccs (icd_to_cc : List (String × List String)) (dx : String) : List String :=
  let dx_clean := pyUpper (pyReplace dx "." "")
  match dictGet dx_clean icd_to_cc with
  | some ccs => ccs
  | none =>
    match [6, 5, 4, 3].findSome? (fun n => dictGet (pyTake dx_clean n) icd_to_cc) with
    | some ccs => ccs
    | none => []

/-- calculator.py `_map_diagnoses_to_ccs`. -/
def map_diagnoses_to_ccs (icd_to_cc : List (String × List String))
    (diagnoses : List String) : Finset String :=
  let ccs := diagnoses.foldl (fun acc dx => acc ∪ (dx_ccs icd_to_cc dx).toFinset) ∅
  ccs.image normalize_cc

/-- One entry of the hierarchy loop: if the dominant code is in the current
set, discard every superseded code. -/
def hierStep (hcc_set : Finset String) (entry : String × List String) :
    Finset String :=
  if entry.1 ∈ hcc_set then entry.2.foldl Finset.erase hcc_set else hcc_set

/-- hierarchies.py `apply_hierarchies`, parameterized by the loaded hierarchy
table instead of the model year. -/
def apply_hierarchies (hierarchies : List (String × List String))
    (cc_set : Finset String) : Finset String :=
  hierarchies.foldl hierStep cc_set

/-- calculator.py `_apply_rxc_hierarchies` (same removal loop over the RXC
hierarchy table). -/
def apply_rxc_hierarchies (rxc_hierarchies : List (String × List String))
    (rxcs : Finset String) : Finset String :=
  rxc_hierarchies.foldl
    (fun final_rxcs entry =>
      if entry.1 ∈ final_rxcs then entry.2.foldl Finset.erase final_rxcs else final_rxcs)
    rxcs

/-- calculator.py `_exclude_model_hccs`: set difference against the model's
exclusion set (empty when the model has no entry). -/
def exclude_model_hccs (exclusions : List (String × List String))
    (hccs : Finset String) (model : String) : Finset String :=
  hccs \ ((dictGet model exclusions).getD []).toFinset

/-- One group of calculator.py `_apply_groupings`: if any member HCC of the
group is in the working set, trigger the group variable and discard all of
the group's member HCCs. -/
def groupStep (st : Finset String × Finset String) (entry : String × List String) :
    Finset String × Finset String :=
  if entry.2.any (fun h => decide (h ∈ st.1)) then
    (entry.2.foldl Finset.erase st.1, insert entry.1 st.2)
  else st

/-- The fold of calculator.py `_apply_groupings` over the group table. -/
def groupFold (groups : List (String × List String))
    (st : Finset String × Finset String) : Finset String × Finset String :=
  groups.foldl groupStep st

/-- calculator.py `_apply_groupings`: Infant passes through unchanged;
otherwise fold the group table over (remaining HCCs, triggered groups). -/
def apply_groupings (groups : List (String × List String)) (hccs : Finset String)
    (model : String) : Finset String × Finset String :=
  if model = "Infant" then (hccs, ∅) else groupFold groups (hccs, ∅)

/-- table_loader.py `load_hcc_groups(model_year, model)`: table_6 for Adult,
table_7 otherwise (rows already filtered by model at load time). -/
def hcc_groups_for (t : RefTables) (model : String) : List (String × List String) :=
  if model = "Adult" then t.hcc_groups_adult else t.hcc_groups_child

/-- calculator.py `_map_ndcs_to_rxcs`: strip dashes and whitespace, exact
match, else — for a purely numeric code shorter than 11 digits — retry after
zero-padding to 11 digits. -/
def map_ndcs_to_rxcs (ndc_to_rxc : List (String × List String))
    (ndc_codes : List String) : Finset String :=
  ndc_codes.foldl
    (fun acc ndc =>
      let ndc_clean := pyTrim (pyReplace ndc "-" "")
      match dictGet ndc_clean ndc_to_rxc with
      | some rxcs => acc ∪ rxcs.toFinset
      | none =>
        if isDigits ndc_clean ∧ ndc_clean.data.length < 11 then
          match dictGet (zfill 11 ndc_clean) ndc_to_rxc with
          | some rxcs => acc ∪ rxcs.toFinset
          | none => acc
        else acc)
    ∅

/-- The variable-name rendering of calculator.py lines 410-418:
`"35" → "HHS_HCC035"`, `"35_1" → "HHS_HCC035_1"`. -/
def hcc_var_name (hcc : String) : String :=
  if isDigits hcc then "HHS_HCC" ++ zfill 3 hcc
  else
    match pySplitOn hcc "_" with
    | [a, b] => if isDigits a then "HHS_HCC" ++ zfill 3 a ++ "_" ++ b
                else "HHS_HCC" ++ hcc
    | _ => "HHS_HCC" ++ hcc

/-- calculator.py `_find_source_icds_for_hcc`. -/
def find_source_icds_for_hcc (icd_to_cc : List (String × List String))
    (hcc : String) (diagnoses : List String) : List String :=
  diagnoses.filter (fun dx => decide (hcc ∈ map_diagnoses_to_ccs icd_to_cc [dx]))

/-- calculator.py `_find_source_ndcs_for_rxc`. -/
def find_source_ndcs_for_rxc (ndc_to_rxc : List (String × List String))
    (rxc : String) (ndc_codes : List String) : List String :=
  ndc_codes.filter (fun ndc => decide (rxc ∈ map_ndcs_to_rxcs ndc_to_rxc [ndc]))

/-- The candidate coefficient variable names for an RXC
(calculator.py lines 530-535). -/
def rxc_candidates (rxc : String) : List String :=
  ["RXC_" ++ zfill 2 rxc, "RXC_" ++ zfill 3 rxc, "RXC_" ++ rxc, rxc]

/-- Python's string order: code-point lexicographic (the order `sorted`
uses), via the lexicographic order on the character lists. -/
def pyStrLe (a b : String) : Prop := a.data ≤ b.data

instance : DecidableRel pyStrLe :=
  fun a b => inferInstanceAs (Decidable (a.data ≤ b.data))

instance : IsTrans String pyStrLe := ⟨fun _ _ _ h1 h2 => le_trans h1 h2⟩

instance : IsAntisymm String pyStrLe :=
  ⟨fun a b h1 h2 => by
    cases a; cases b
    exact congrArg String.mk (le_antisymm h1 h2)⟩

instance : IsTotal String pyStrLe := ⟨fun a b => le_total a.data b.data⟩

/-- Sorted view of a set, as Python's `sorted` over strings (insertion sort
over the underlying multiset; any two list representatives sort equal). -/
def sortStr (s : Finset String) : List String :=
  Quot.liftOn s.val (fun l => l.insertionSort pyStrLe)
    (fun l1 l2 h => List.eq_of_perm_of_sorted
      ((List.perm_insertionSort _ l1).trans
        (h.trans (List.perm_insertionSort _ l2).symm))
      (List.sorted_insertionSort _ l1) (List.sorted_insertionSort _ l2))

/-- Accumulator of the scoring loops: (score so far, details entries,
audit components), mirroring `hcc_score` / `hcc_details` / `components`. -/
abbrev ScoreAcc := Rat × List (String × Rat) × List ScoreComponent

/-- Step 7 loop of calculator.py `score` (lines 409-442): score each
remaining individual HCC; a non-zero coefficient accumulates and appends an
audit component built through the pydantic constructor. -/
def score_hcc_fold (t : RefTables) (model metal_level : String)
    (diagnoses : List String) (hccs : List String) : Except String ScoreAcc :=
  hccs.foldlM
    (fun st hcc => do
      let var_name := hcc_var_name hcc
      let coef := get_coefficient t.coefficients model var_name metal_level
      if coef ≠ 0 then
        let source_icds := find_source_icds_for_hcc t.icd_to_cc hcc diagnoses
        let c ← ScoreComponent.construct "hcc" var_name
          (dictGet hcc t.hcc_labels) coef source_icds
          [("icd_mapping", "table_3"), ("hierarchy", "table_4"),
           ("coefficient", "table_9"), ("model", model),
           ("metal_level", metal_level)]
        pure (st.1 + coef, st.2.1 ++ [(var_name, coef)], st.2.2 ++ [c])
      else pure st)
    (0, [], [])

/-- Group-variable loop of calculator.py `score` (lines 445-473). -/
def score_group_fold (t : RefTables) (model metal_level : String)
    (grouped_hccs : Finset String) (groups : List String) (st0 : ScoreAcc) :
    Except String ScoreAcc :=
  groups.foldlM
    (fun st group => do
      let coef := get_coefficient t.coefficients model group metal_level
      if coef ≠ 0 then
        let groups_map := hcc_groups_for t model
        let group_member_hccs :=
          ((dictGet group groups_map).getD []).filter
            (fun h => decide (h ∈ grouped_hccs))
        let c ← ScoreComponent.construct "hcc_group" group none coef
          group_member_hccs
          [("grouping", if model = "Adult" then "table_6" else "table_7"),
           ("coefficient", "table_9"), ("model", model),
           ("metal_level", metal_level)]
        pure (st.1 + coef, st.2.1 ++ [(group, coef)], st.2.2 ++ [c])
      else pure st)
    st0

/-- Step 7b of calculator.py `score` (lines 475-515), the Adult Enrollment
Duration Factor: when enrollment months lie in 1..6 and at least one payment
HCC or group remains, look up `HCC_ED{months}`; a non-zero factor is added
to the score and recorded as an audit component of type `"edf"` — built
through the pydantic constructor.  Returns the updated accumulator together
with the `edf_var` / `edf_factor` values the details dictionary reports.
The `or 12` of line 489 maps a falsy (zero) enrollment value to 12. -/
def score_edf_step (t : RefTables) (model metal_level : String)
    (enrollment_months_raw : Int) (hcc_cnt : Nat) (st : ScoreAcc) :
    Except String (ScoreAcc × Option String × Rat) :=
  if model = "Adult" then
    let em := if enrollment_months_raw = 0 then 12 else enrollment_months_raw
    if 1 ≤ em ∧ em ≤ 6 ∧ 0 < hcc_cnt then
      let edf_var := "HCC_ED" ++ intToStr em
      let edf_factor := get_coefficient t.coefficients model edf_var metal_level
      if edf_factor ≠ 0 then do
        let c ← ScoreComponent.construct "edf" edf_var
          (some ("Enrollment Duration " ++ intToStr em ++ " months, at least one HCC"))
          edf_factor
          ["enrollment_months=" ++ intToStr em, "hcc_cnt=" ++ natToStr hcc_cnt]
          [("coefficient", "table_9"), ("model", model),
           ("metal_level", metal_level)]
        pure ((st.1 + edf_factor, st.2.1 ++ [(edf_var, edf_factor)], st.2.2 ++ [c]),
          some edf_var, edf_factor)
      else pure (st, some edf_var, edf_factor)
    else pure (st, none, 0)
  else pure (st, none, 0)

/-- Step 8 loop of calculator.py `score` (lines 527-567): for each surviving
RXC, the first candidate variable name with a non-zero coefficient wins. -/
def score_rxc_fold (t : RefTables) (model metal_level : String)
    (ndc_codes : List String) (rxcs : List String) : Except String ScoreAcc :=
  rxcs.foldlM
    (fun st rxc => do
      let hit := (rxc_candidates rxc).findSome?
        (fun cand =>
          let c := get_coefficient t.coefficients model cand metal_level
          if c ≠ 0 then some (cand, c) else none)
      match hit with
      | some (var_name, coef) => do
          let source_ndcs := find_source_ndcs_for_rxc t.ndc_to_rxc rxc ndc_codes
          let c ← ScoreComponent.construct "rxc" var_name
            (dictGet rxc t.rxc_labels) coef source_ndcs
            [("ndc_mapping", "table_10a"), ("hierarchy", "table_11"),
             ("coefficient", "table_9"), ("model", model),
             ("metal_level", metal_level)]
          pure (st.1 + coef, st.2.1 ++ [(var_name, coef)], st.2.2 ++ [c])
      | none => pure st)
    (0, [], [])

/-- calculator.py `score`: the 9-step pipeline for one member.  The Python
iterates sets in unspecified order; the loops here run in sorted order, a
fixed representative (only commutative sums and set-shaped results depend on
it).  Exceptions raised by pydantic validation surface as `Except.error`. -/
def score (t : RefTables) (model_year : Int) (member : MemberInput)
    (prediction_year : Option Int) : Except String ScoreOutput := do
  let target_year := prediction_year.getD model_year
  let benefit_year_end : PyDate := ⟨target_year, 12, 31⟩
  let age := calculate_age member.date_of_birth benefit_year_end
  let model := get_model_type age
  let demo_var := get_demographic_variable model member.gender age
  let demographic_factor :=
    get_coefficient t.coefficients model demo_var member.metal_level
  let c0 ← ScoreComponent.construct "demographic" demo_var none demographic_factor
    ["age=" ++ intToStr age, "gender=" ++ member.gender]
    [("table", "table_9"), ("model", model), ("metal_level", member.metal_level)]
  let raw_ccs := map_diagnoses_to_ccs t.icd_to_cc member.diagnoses
  let hccs_after_hierarchy := apply_hierarchies t.hierarchies raw_ccs
  let hccs_filtered := exclude_model_hccs t.exclusions hccs_after_hierarchy model
  let grouped := apply_groupings (hcc_groups_for t model) hccs_filtered model
  let remaining_hccs := grouped.1
  let triggered_groups := grouped.2
  let grouped_hccs := hccs_filtered \ remaining_hccs
  let st1 ← score_hcc_fold t model member.metal_level member.diagnoses
    (sortStr remaining_hccs)
  let st2 ← score_group_fold t model member.metal_level grouped_hccs
    (sortStr triggered_groups) st1
  let hcc_cnt := remaining_hccs.card + triggered_groups.card
  let edf ← score_edf_step t model member.metal_level member.enrollment_months
    hcc_cnt st2
  let st3 := edf.1
  let raw_rxcs := map_ndcs_to_rxcs t.ndc_to_rxc member.ndc_codes
  let rxcs_after_hierarchy := apply_rxc_hierarchies t.rxc_hierarchies raw_rxcs
  let st4 ← score_rxc_fold t model member.metal_level member.ndc_codes
    (sortStr rxcs_after_hierarchy)
  let hcc_score := st3.1
  let rxc_score := st4.1
  let total_score := demographic_factor + hcc_score + rxc_score
  let final_hccs := sortStr remaining_hccs ++ sortStr triggered_groups
  let final_rxcs := sortStr rxcs_after_hierarchy
  pure
    { member_id := member.member_id
      risk_score := total_score
      hcc_list := final_hccs
      details :=
        { model := model
          age := age
          gender := member.gender
          metal_level := member.metal_level
          enrollment_months := member.enrollment_months
          demographic_variable := demo_var
          demographic_factor := demographic_factor
          raw_ccs := sortStr raw_ccs
          hccs_after_hierarchy := sortStr hccs_after_hierarchy
          hccs_filtered := sortStr hccs_filtered
          remaining_hccs := sortStr remaining_hccs
          triggered_groups := sortStr triggered_groups
          hcc_cnt := hcc_cnt
          edf_variable := edf.2.1
          edf_factor := edf.2.2
          hcc_coefficients := st3.2.1
          hcc_score := hcc_score
          raw_rxcs := sortStr raw_rxcs
          rxcs_after_hierarchy := final_rxcs
          rxc_coefficients := st4.2.1
          rxc_score := rxc_score
          model_year := model_year }
      components := [c0] ++ st3.2.2 ++ st4.2.2 }

/-- calculator.py `score_batch`: one independent scoring call per member, in
input order. -/
def score_batch (t : RefTables) (model_year : Int) (members : List MemberInput)
    (prediction_year : Option Int) : Except String (List ScoreOutput) :=
  members.mapM (fun member => score t model_year member prediction_year)

/-- One row of table_3.parquet as `load_icd_to_cc` reads it: the icd10 code
and up to three CC columns (absent columns are `none`). -/
structure Table3Row where
  icd10 : String
  cc : Option String
  second_cc : Option String
  third_cc : Option String

/-- The filesystem as the table loader sees it: which model years have a
`cy{year}_diy_tables` directory, and the rows of table_3 for each year. -/
structure TablesEnv where
  years_available : List String
  table_3 : String → List Table3Row

/-- The module-level `_CACHE` dict, restricted to the icd_to_cc entries the
claim exercises. -/
abbrev LoaderCache := List (String × List (String × List String))

/-- table_loader.py `_get_tables_dir`: raises `FileNotFoundError` when the
model year has no table directory. -/
def get_tables_dir (env : TablesEnv) (model_year : String) : Except String Unit :=
  if model_year ∈ env.years_available then .ok ()
  else .error ("FileNotFoundError: DIY tables not found for model year " ++ model_year)

/-- Python truthiness-plus-strip of table_loader.py lines 61-68: keep a CC
column value when it is present, nonempty and nonempty after stripping. -/
def cc_column (v : Option String) : List String :=
  match v with
  | some c => if c ≠ "" ∧ pyTrim c ≠ "" then [pyTrim c] else []
  | none => []

/-- The row loop of `load_icd_to_cc` (table_loader.py lines 56-71): build the
icd10 → CCs dict, skipping rows that contribute no CC. -/
def parse_table_3 (rows : List Table3Row) : List (String × List String) :=
  rows.foldl
    (fun m row =>
      let icd10 := pyTrim row.icd10
      let ccs := cc_column row.cc ++ cc_column row.second_cc ++ cc_column row.third_cc
      if ccs ≠ [] then dictSet m icd10 ccs else m)
    []

/-- table_loader.py `load_icd_to_cc`: return the cached table when the cache
key is present; otherwise resolve the tables directory (failing for an
unavailable year), parse table_3 and cache the result. -/
def load_icd_to_cc (env : TablesEnv) (cache : LoaderCache) (model_year : String) :
    Except String (List (String × List String) × LoaderCache) :=
  let cache_key := "icd_to_cc_" ++ model_year
  match dictGet cache_key cache with
  | some v => .ok (v, cache)
  | none => do
    let _ ← get_tables_dir env model_year
    let icd_to_cc := parse_table_3 (env.table_3 model_year)
    .ok (icd_to_cc, dictSet cache cache_key icd_to_cc)

/-- table_loader.py `clear_cache`: `_CACHE.clear()`. -/
def clear_cache (_cache : LoaderCache) : LoaderCache := []

/-- Spec §4.2 per-code resolution, written from the spec's words: normalize
(strip dots, uppercase), try an exact match, on a miss try the prefixes of
length 6, 5, 4, 3 in that order and take the first hit; no match yields
nothing. -/
def spec_code_ccs (icd_to_cc : List (String × List String)) (dx : String) :
    Finset String :=
  let norm := pyUpper (pyReplace dx "." "")
  match dictGet norm icd_to_cc with
  | some ccs => ccs.toFinset
  | none =>
    match [6, 5, 4, 3].findSome? (fun n => dictGet (pyTake norm n) icd_to_cc) with
    | some ccs => ccs.toFinset
    | none => ∅

/-- Spec §4.2, written from the spec's words: the output set is the union of
the per-code results, each normalized per §3. -/
def map_diagnoses_spec (icd_to_cc : List (String × List String))
    (diagnoses : List String) : Finset String :=
  diagnoses.foldr
    (fun dx acc => (spec_code_ccs icd_to_cc dx).image normalize_cc ∪ acc) ∅

/-- Transitive closure of a hierarchy table: whenever a dominant code
supersedes another code that itself heads an entry, it also supersedes
everything that entry supersedes.  The CMS tables have this shape (e.g. HCC
19 supersedes both 20 and 21 while 20 supersedes 21). -/
def HierClosed (H : List (String × List String)) : Prop :=
  ∀ e1 ∈ H, ∀ e2 ∈ H, e2.1 ∈ e1.2 → ∀ x ∈ e2.2, x ∈ e1.2

/-- Pairwise disjointness of the member-HCC lists of a group table. -/
def GroupsDisjoint (G : List (String × List String)) : Prop :=
  G.Pairwise (fun e1 e2 => ∀ x ∈ e1.2, x ∉ e2.2)

/-- Fixture: a one-HCC reference-table set whose Adult coefficients include
a non-zero `HCC_ED6` at silver. -/
def edfTables : RefTables :=
  { icd_to_cc := [("K5000", ["35"])]
    hierarchies := []
    coefficients := [(("Adult", "HHS_HCC035"), [("silver", 1)]),
                     (("Adult", "HCC_ED6"), [("silver", (1 : Rat) / 4)]),
                     (("Adult", "MAGE_LAST_40_44"), [("silver", (3 : Rat) / 10)])]
    exclusions := []
    hcc_groups_adult := []
    hcc_groups_child := []
    ndc_to_rxc := []
    rxc_hierarchies := []
    hcc_labels := []
    rxc_labels := [] }

/-- Fixture: an Adult member with 6 enrollment months and one payment HCC. -/
def edfMember : MemberInput :=
  ⟨"EDF001", ⟨1980, 1, 1⟩, "M", "silver", ["K5000"], [], 6⟩

/-- Fixture: tables with a non-zero `HCC_ED3` at bronze. -/
def edfTables3 : RefTables :=
  { icd_to_cc := [("E1165", ["21"])]
    hierarchies := []
    coefficients := [(("Adult", "HHS_HCC021"), [("bronze", (1 : Rat) / 2)]),
                     (("Adult", "HCC_ED3"), [("bronze", (1 : Rat) / 5)]),
                     (("Adult", "FAGE_LAST_40_44"), [("bronze", (2 : Rat) / 10)])]
    exclusions := []
    hcc_groups_adult := []
    hcc_groups_child := []
    ndc_to_rxc := []
    rxc_hierarchies := []
    hcc_labels := []
    rxc_labels := [] }

/-- Fixture: an Adult member with 3 enrollment months and one payment HCC. -/
def edf3Member : MemberInput :=
  ⟨"EDF003", ⟨1980, 1, 1⟩, "F", "bronze", ["E1165"], [], 3⟩

/-- Fixture: the same member with full-year enrollment. -/
def edf12Member : MemberInput :=
  ⟨"EDF003", ⟨1980, 1, 1⟩, "F", "bronze", ["E1165"], [], 12⟩

/-- Fixture: a member with no diagnosis and no drug codes. -/
def demoOnlyMember : MemberInput :=
  ⟨"D001", ⟨1980, 1, 1⟩, "M", "silver", [], [], 12⟩

/-- Fixture: a member born after the 2024 benefit year end. -/
def futureMember : MemberInput :=
  ⟨"F001", ⟨2030, 6, 15⟩, "F", "gold", ["E1165"], [], 12⟩

/-- Fixture: a loader environment with tables only for model year 2024. -/
def loaderEnvA : TablesEnv :=
  ⟨["2024"], fun _ => [⟨"E1165", some "21", none, none⟩]⟩

/-- Fixture: a loader environment with no tables at all (used to show cached
loads never consult the filesystem again). -/
def loaderEnvEmpty : TablesEnv := ⟨[], fun _ => []⟩

lemma mem_sortStr (x : String) (s : Finset String) : x ∈ sortStr s ↔ x ∈ s := by
  rcases s with ⟨m, hm⟩
  induction m using Quotient.inductionOn with
  | h l =>
      show x ∈ l.insertionSort pyStrLe ↔ _
      rw [(List.perm_insertionSort pyStrLe l).mem_iff]
      exact Iff.rfl

lemma foldl_erase_eq_sdiff (l : List String) (s : Finset String) :
    l.foldl Finset.erase s = s \ l.toFinset := by
  induction l generalizing s with
  | nil => simp
  | cons a t ih =>
      rw [List.foldl_cons, ih, List.toFinset_cons]
      ext x
      simp only [Finset.mem_sdiff, Finset.mem_erase, Finset.mem_insert]
      tauto

lemma hierStep_subset (s : Finset String) (e : String × List String) :
    hierStep s e ⊆ s := by
  unfold hierStep
  split
  · rw [foldl_erase_eq_sdiff]; exact Finset.sdiff_subset
  · exact Finset.Subset.refl s

lemma apply_hierarchies_subset (H : List (String × List String))
    (S : Finset String) : apply_hierarchies H S ⊆ S := by
  induction H generalizing S with
  | nil => exact Finset.Subset.refl S
  | cons e T ih =>
      have h1 : apply_hierarchies (e :: T) S = apply_hierarchies T (hierStep S e) := rfl
      rw [h1]
      exact (ih (hierStep S e)).trans (hierStep_subset S e)

lemma apply_hierarchies_superseded_not_mem (H : List (String × List String))
    (S : Finset String) (e : String × List String) (he : e ∈ H)
    (hd : e.1 ∈ apply_hierarchies H S) :
    ∀ x ∈ e.2, x ∉ apply_hierarchies H S := by
  induction H generalizing S with
  | nil => cases he
  | cons e0 T ih =>
      rw [List.mem_cons] at he
      have h1 : apply_hierarchies (e0 :: T) S = apply_hierarchies T (hierStep S e0) := rfl
      rw [h1] at hd ⊢
      rcases he with rfl | he
      · intro x hx hmem
        by_cases h0 : e.1 ∈ S
        · have hin : x ∈ hierStep S e :=
            apply_hierarchies_subset T (hierStep S e) hmem
          rw [hierStep, if_pos h0, foldl_erase_eq_sdiff] at hin
          exact (Finset.mem_sdiff.mp hin).2 (List.mem_toFinset.mpr hx)
        · have hin : e.1 ∈ hierStep S e :=
            apply_hierarchies_subset T (hierStep S e) hd
          rw [hierStep, if_neg h0] at hin
          exact h0 hin
      · exact ih (hierStep S e0) he hd

lemma apply_hierarchies_fixed (H : List (String × List String)) (A : Finset String)
    (h : ∀ e ∈ H, e.1 ∈ A → ∀ x ∈ e.2, x ∉ A) : apply_hierarchies H A = A := by
  induction H with
  | nil => rfl
  | cons e0 T ih =>
      have hstep : hierStep A e0 = A := by
        unfold hierStep
        split
        case isTrue h0 =>
          rw [foldl_erase_eq_sdiff]
          ext x
          simp only [Finset.mem_sdiff, List.mem_toFinset]
          exact ⟨fun hx => hx.1,
            fun hx => ⟨hx, fun hx2 => h e0 (List.mem_cons_self e0 T) h0 x hx2 hx⟩⟩
        case isFalse h0 => rfl
      have h1 : apply_hierarchies (e0 :: T) A = apply_hierarchies T (hierStep A e0) := rfl
      rw [h1, hstep]
      exact ih (fun e he => h e (List.mem_cons_of_mem _ he))

lemma rxc_hier_eq : apply_rxc_hierarchies = apply_hierarchies := rfl

/-- C7: hierarchy resolution is idempotent — applying `apply_hierarchies`
(and likewise `_apply_rxc_hierarchies`) to its own output returns that
output unchanged, for every code set and every hierarchy table. -/
theorem C7_hierarchy_idempotent (H : List (String × List String))
    (S : Finset String) :
    apply_hierarchies H (apply_hierarchies H S) = apply_hierarchies H S ∧
    apply_rxc_hierarchies H (apply_rxc_hierarchies H S) =
      apply_rxc_hierarchies H S := by
  constructor
  · exact apply_hierarchies_fixed H (apply_hierarchies H S)
      (fun e he h1 => apply_hierarchies_superseded_not_mem H S e he h1)
  · rw [rxc_hier_eq]
    exact apply_hierarchies_fixed H (apply_hierarchies H S)
      (fun e he h1 => apply_hierarchies_superseded_not_mem H S e he h1)

lemma apply_hierarchies_closed_eq (H : List (String × List String))
    (S : Finset String) (hc : HierClosed H) :
    apply_hierarchies H S =
      S.filter (fun x => ∀ e ∈ H, e.1 ∈ S → x ∉ e.2) := by
  induction H generalizing S with
  | nil => simp [apply_hierarchies]
  | cons e0 T ih =>
      have hcT : HierClosed T := fun e1 h1 e2 h2 =>
        hc e1 (List.mem_cons_of_mem _ h1) e2 (List.mem_cons_of_mem _ h2)
      have h1 : apply_hierarchies (e0 :: T) S = apply_hierarchies T (hierStep S e0) := rfl
      rw [h1, ih (hierStep S e0) hcT]
      by_cases h0 : e0.1 ∈ S
      · have hstep : hierStep S e0 = S \ e0.2.toFinset := by
          rw [hierStep, if_pos h0, foldl_erase_eq_sdiff]
        rw [hstep]
        ext x
        simp only [Finset.mem_filter, Finset.mem_sdiff, List.mem_toFinset,
          List.mem_cons]
        constructor
        · rintro ⟨⟨hxS, hxe0⟩, hT⟩
          refine ⟨hxS, ?_⟩
          rintro e (rfl | heT) heS
          · exact hxe0
          · intro hxe
            by_cases heIn : e.1 ∈ e0.2
            · exact hxe0 (hc e0 (List.mem_cons_self e0 T) e
                (List.mem_cons_of_mem _ heT) heIn x hxe)
            · exact hT e heT ⟨heS, heIn⟩ hxe
        · rintro ⟨hxS, hall⟩
          refine ⟨⟨hxS, hall e0 (Or.inl rfl) h0⟩, ?_⟩
          intro e heT heS2 hxe
          exact hall e (Or.inr heT) heS2.1 hxe
      · have hstep : hierStep S e0 = S := by rw [hierStep, if_neg h0]
        rw [hstep]
        ext x
        simp only [Finset.mem_filter, List.mem_cons]
        constructor
        · rintro ⟨hxS, hT⟩
          exact ⟨hxS, by rintro e (rfl | heT) heS
                         · exact absurd heS h0
                         · exact hT e heT heS⟩
        · rintro ⟨hxS, hall⟩
          exact ⟨hxS, fun e heT heS => hall e (Or.inr heT) heS⟩

/-- C4 counterexample: in the hierarchy table `{A → [B], B → [C]}` (which is
not transitively closed) the final set depends on the iteration order over
the entries: processing A first keeps C, processing B first removes it, on
the same input set `{A, B, C}`. -/
theorem C4_order_dependent :
    apply_hierarchies [("A", ["B"]), ("B", ["C"])] {"A", "B", "C"} =
      ({"A", "C"} : Finset String) ∧
    apply_hierarchies [("B", ["C"]), ("A", ["B"])] {"A", "B", "C"} =
      ({"A"} : Finset String) ∧
    List.Perm [("A", ["B"]), ("B", ["C"])] [("B", ["C"]), ("A", ["B"])] ∧
    apply_hierarchies [("A", ["B"]), ("B", ["C"])] {"A", "B", "C"} ≠
      apply_hierarchies [("B", ["C"]), ("A", ["B"])] {"A", "B", "C"} := by
  refine ⟨by decide, by decide, ?_, by decide⟩
  exact List.Perm.swap _ _ _

/-- C4 amended: when the hierarchy table is transitively closed (as the CMS
supersession tables are), the result of `apply_hierarchies` — and of the
identical `_apply_rxc_hierarchies` — is the same for any two iteration
orders over the entries. -/
theorem C4_order_independent_of_closed (H1 H2 : List (String × List String))
    (S : Finset String) (hc : HierClosed H1) (hp : List.Perm H1 H2) :
    apply_hierarchies H1 S = apply_hierarchies H2 S ∧
    apply_rxc_hierarchies H1 S = apply_rxc_hierarchies H2 S := by
  have hc2 : HierClosed H2 := fun e1 h1 e2 h2 =>
    hc e1 (hp.mem_iff.mpr h1) e2 (hp.mem_iff.mpr h2)
  have hmain : apply_hierarchies H1 S = apply_hierarchies H2 S := by
    rw [apply_hierarchies_closed_eq H1 S hc, apply_hierarchies_closed_eq H2 S hc2]
    ext x
    simp only [Finset.mem_filter]
    constructor
    · rintro ⟨hxS, hall⟩
      exact ⟨hxS, fun e he => hall e (hp.mem_iff.mpr he)⟩
    · rintro ⟨hxS, hall⟩
      exact ⟨hxS, fun e he => hall e (hp.mem_iff.mp he)⟩
  exact ⟨hmain, by rw [rxc_hier_eq]; exact hmain⟩

/-- Witness for the amended C4 at a concrete closed table: `{A → [B, C],
B → [C]}` against its reversal. -/
theorem C4_order_independent_witness :
    HierClosed [("A", ["B", "C"]), ("B", ["C"])] ∧
    List.Perm [("A", ["B", "C"]), ("B", ["C"])] [("B", ["C"]), ("A", ["B", "C"])] ∧
    (apply_hierarchies [("A", ["B", "C"]), ("B", ["C"])] {"A", "B", "C"} =
       apply_hierarchies [("B", ["C"]), ("A", ["B", "C"])] {"A", "B", "C"} ∧
     apply_rxc_hierarchies [("A", ["B", "C"]), ("B", ["C"])] {"A", "B", "C"} =
       apply_rxc_hierarchies [("B", ["C"]), ("A", ["B", "C"])] {"A", "B", "C"}) := by
  refine ⟨?_, ?_, ?_⟩
  · intro e1 h1 e2 h2
    fin_cases h1 <;> fin_cases h2 <;> simp
  · exact List.Perm.swap _ _ _
  · exact C4_order_independent_of_closed _ _ _
      (by intro e1 h1 e2 h2
          fin_cases h1 <;> fin_cases h2 <;> simp)
      (List.Perm.swap _ _ _)

lemma groupStep_fst_subset (st : Finset String × Finset String)
    (e : String × List String) : (groupStep st e).1 ⊆ st.1 := by
  unfold groupStep
  split
  · rw [foldl_erase_eq_sdiff]; exact Finset.sdiff_subset
  · exact Finset.Subset.refl st.1

lemma groupStep_snd_mono (st : Finset String × Finset String)
    (e : String × List String) : st.2 ⊆ (groupStep st e).2 := by
  unfold groupStep
  split
  · exact Finset.subset_insert _ _
  · exact Finset.Subset.refl st.2

lemma groupFold_fst_subset (G : List (String × List String)) :
    ∀ st, (groupFold G st).1 ⊆ st.1 := by
  induction G with
  | nil => exact fun st => Finset.Subset.refl st.1
  | cons e T ih =>
      intro st
      have h1 : groupFold (e :: T) st = groupFold T (groupStep st e) := rfl
      rw [h1]
      exact (ih (groupStep st e)).trans (groupStep_fst_subset st e)

lemma groupFold_snd_mono (G : List (String × List String)) :
    ∀ st, st.2 ⊆ (groupFold G st).2 := by
  induction G with
  | nil => exact fun st => Finset.Subset.refl st.2
  | cons e T ih =>
      intro st
      have h1 : groupFold (e :: T) st = groupFold T (groupStep st e) := rfl
      rw [h1]
      exact (groupStep_snd_mono st e).trans (ih (groupStep st e))

lemma groupFold_snd_subset (G : List (String × List String)) :
    ∀ st, (groupFold G st).2 ⊆ st.2 ∪ (G.map Prod.fst).toFinset := by
  induction G with
  | nil => intro st; simp [groupFold]
  | cons e T ih =>
      intro st
      have h1 : groupFold (e :: T) st = groupFold T (groupStep st e) := rfl
      rw [h1]
      refine (ih (groupStep st e)).trans ?_
      intro x hx
      rw [Finset.mem_union] at hx
      simp only [Finset.mem_union, List.map_cons, List.toFinset_cons,
        Finset.mem_insert]
      rcases hx with hx | hx
      · have : x ∈ (groupStep st e).2 := hx
        unfold groupStep at this
        split at this
        · rw [Finset.mem_insert] at this
          rcases this with rfl | this
          · exact Or.inr (Or.inl rfl)
          · exact Or.inl this
        · exact Or.inl this
      · exact Or.inr (Or.inr hx)

lemma groupFold_trigger (G : List (String × List String)) :
    ∀ st : Finset String × Finset String, GroupsDisjoint G →
    ∀ gv ms, (gv, ms) ∈ G → ∀ m, m ∈ ms → m ∈ st.1 →
    gv ∈ (groupFold G st).2 ∧ ∀ m2 ∈ ms, m2 ∉ (groupFold G st).1 := by
  induction G with
  | nil => intro st _ gv ms hmem; cases hmem
  | cons e0 T ih =>
      intro st hdisj gv ms hmem m hm hin
      rw [GroupsDisjoint, List.pairwise_cons] at hdisj
      rw [List.mem_cons] at hmem
      have h1 : groupFold (e0 :: T) st = groupFold T (groupStep st e0) := rfl
      rw [h1]
      rcases hmem with heq | hmem
      · subst heq
        have htrig : (List.any ms fun h => decide (h ∈ st.1)) = true :=
          List.any_eq_true.mpr ⟨m, hm, by simpa using hin⟩
        have hstep : groupStep st (gv, ms) =
            (st.1 \ ms.toFinset, insert gv st.2) := by
          unfold groupStep
          rw [if_pos htrig, foldl_erase_eq_sdiff]
        rw [hstep]
        constructor
        · exact groupFold_snd_mono T _ (Finset.mem_insert_self gv st.2)
        · intro m2 hm2 hmem2
          have := groupFold_fst_subset T _ hmem2
          rw [Finset.mem_sdiff] at this
          exact this.2 (List.mem_toFinset.mpr hm2)
      · have hm_not_e0 : m ∉ e0.2 := fun hx => hdisj.1 (gv, ms) hmem m hx hm
        have hin2 : m ∈ (groupStep st e0).1 := by
          unfold groupStep
          split
          · rw [foldl_erase_eq_sdiff, Finset.mem_sdiff]
            exact ⟨hin, fun h => hm_not_e0 (List.mem_toFinset.mp h)⟩
          · exact hin
        exact ih (groupStep st e0) hdisj.2 gv ms hmem m hm hin2

/-- C5 counterexample: with overlapping group definitions the claim fails —
in `[("G1", ["H1"]), ("G2", ["H1"])]` on working set `{H1}`, the member HCC
H1 of group G2 is present in the post-exclusion set, yet G2 is not
triggered (G1 fires first and removes H1); moreover with a group whose
variable name equals its member HCC (`[("X", ["X"])]`), the member HCC does
appear in the final hcc list. -/
theorem C5_overlap_counterexample :
    ("H1" ∈ ["H1"] ∧ "H1" ∈ ({"H1"} : Finset String) ∧
      ("G2", ["H1"]) ∈ [("G1", ["H1"]), ("G2", ["H1"])] ∧
      "G2" ∉ (apply_groupings [("G1", ["H1"]), ("G2", ["H1"])] {"H1"} "Adult").2) ∧
    ("X" ∈
      sortStr (apply_groupings [("X", ["X"])] {"X"} "Adult").1 ++
        sortStr (apply_groupings [("X", ["X"])] {"X"} "Adult").2) := by
  refine ⟨⟨by decide, by decide, by decide, by decide⟩, by decide⟩

/-- C5 amended: for group tables whose member-HCC lists are pairwise
disjoint and whose group variable names never coincide with a member HCC
(both true of the CMS tables), presence of any member HCC in the
post-exclusion working set triggers the group, and every member HCC of the
group is removed from the remaining individual HCCs and absent from the
final hcc list (`sorted remaining ++ sorted triggered`, exactly the
`hcc_list` the score output carries). -/
theorem C5_group_mutual_exclusion (G : List (String × List String))
    (hccs : Finset String) (model : String) (hmodel : model ≠ "Infant")
    (hdisj : GroupsDisjoint G)
    (hnames : ∀ e ∈ G, ∀ x ∈ e.2, ∀ e2 ∈ G, x ≠ e2.1)
    (gv : String) (ms : List String) (hmem : (gv, ms) ∈ G)
    (m : String) (hm : m ∈ ms) (hin : m ∈ hccs) :
    gv ∈ (apply_groupings G hccs model).2 ∧
    (∀ m2 ∈ ms, m2 ∉ (apply_groupings G hccs model).1) ∧
    (∀ m2 ∈ ms,
      m2 ∉ sortStr (apply_groupings G hccs model).1 ++
        sortStr (apply_groupings G hccs model).2) := by
  unfold apply_groupings
  rw [if_neg hmodel]
  have h := groupFold_trigger G (hccs, ∅) hdisj gv ms hmem m hm hin
  refine ⟨h.1, h.2, ?_⟩
  intro m2 hm2 hmem2
  rw [List.mem_append] at hmem2
  rcases hmem2 with h1 | h2
  · exact h.2 m2 hm2 ((mem_sortStr m2 _).mp h1)
  · have hin2 : m2 ∈ (groupFold G (hccs, ∅)).2 := (mem_sortStr m2 _).mp h2
    have hin3 := groupFold_snd_subset G (hccs, ∅) hin2
    rw [Finset.empty_union] at hin3
    obtain ⟨e2, he2, heq⟩ := List.mem_map.mp (List.mem_toFinset.mp hin3)
    exact hnames (gv, ms) hmem m2 hm2 e2 he2 heq.symm

/-- Witness for the amended C5 at a concrete disjoint group table. -/
theorem C5_group_mutual_exclusion_witness :
    ("Adult" : String) ≠ "Infant" ∧
    GroupsDisjoint [("G1", ["H1", "H2"]), ("G2", ["H3"])] ∧
    (∀ e ∈ [("G1", ["H1", "H2"]), ("G2", ["H3"])], ∀ x ∈ e.2,
      ∀ e2 ∈ [("G1", ["H1", "H2"]), ("G2", ["H3"])], x ≠ e2.1) ∧
    ("G1", ["H1", "H2"]) ∈ [("G1", ["H1", "H2"]), ("G2", ["H3"])] ∧
    "H1" ∈ ["H1", "H2"] ∧ "H1" ∈ ({"H1", "H4"} : Finset String) ∧
    ("G1" ∈ (apply_groupings [("G1", ["H1", "H2"]), ("G2", ["H3"])]
        {"H1", "H4"} "Adult").2 ∧
      (∀ m2 ∈ ["H1", "H2"],
        m2 ∉ (apply_groupings [("G1", ["H1", "H2"]), ("G2", ["H3"])]
          {"H1", "H4"} "Adult").1) ∧
      (∀ m2 ∈ ["H1", "H2"],
        m2 ∉ sortStr (apply_groupings [("G1", ["H1", "H2"]), ("G2", ["H3"])]
            {"H1", "H4"} "Adult").1 ++
          sortStr (apply_groupings [("G1", ["H1", "H2"]), ("G2", ["H3"])]
            {"H1", "H4"} "Adult").2)) := by
  refine ⟨by decide, ?_, by decide, by decide, by decide, by decide, ?_⟩
  · unfold GroupsDisjoint
    exact List.Pairwise.cons (by decide) (List.Pairwise.cons (by decide) List.Pairwise.nil)
  · exact C5_group_mutual_exclusion _ _ _ (by decide)
      (by unfold GroupsDisjoint
          exact List.Pairwise.cons (by decide)
            (List.Pairwise.cons (by decide) List.Pairwise.nil))
      (by decide) "G1" ["H1", "H2"] (by decide) "H1" (by decide) (by decide)

lemma construct_demographic_ok (code : String) (desc : Option String)
    (coef : Rat) (src : List String) (refs : List (String × String)) :
    ScoreComponent.construct "demographic" code desc coef src refs =
      .ok ⟨"demographic", code, desc, coef, src, none, [], none, refs⟩ := rfl

lemma construct_hcc_ok (code : String) (desc : Option String) (coef : Rat)
    (src : List String) (refs : List (String × String)) :
    ScoreComponent.construct "hcc" code desc coef src refs =
      .ok ⟨"hcc", code, desc, coef, src, none, [], none, refs⟩ := rfl

lemma construct_group_ok (code : String) (desc : Option String) (coef : Rat)
    (src : List String) (refs : List (String × String)) :
    ScoreComponent.construct "hcc_group" code desc coef src refs =
      .ok ⟨"hcc_group", code, desc, coef, src, none, [], none, refs⟩ := rfl

lemma construct_rxc_ok (code : String) (desc : Option String) (coef : Rat)
    (src : List String) (refs : List (String × String)) :
    ScoreComponent.construct "rxc" code desc coef src refs =
      .ok ⟨"rxc", code, desc, coef, src, none, [], none, refs⟩ := rfl

lemma construct_edf_error (code : String) (desc : Option String) (coef : Rat)
    (src : List String) (refs : List (String × String)) :
    ScoreComponent.construct "edf" code desc coef src refs =
      .error "ValidationError: component_type" := rfl

lemma foldlM_all_ok {σ α : Type} (f : σ → α → Except String σ)
    (h : ∀ st a, ∃ st2, f st a = .ok st2) :
    ∀ (l : List α) (init : σ), ∃ r, l.foldlM f init = .ok r := by
  intro l
  induction l with
  | nil => intro init; exact ⟨init, rfl⟩
  | cons a t ih =>
      intro init
      obtain ⟨st2, h2⟩ := h init a
      obtain ⟨r, hr⟩ := ih st2
      refine ⟨r, ?_⟩
      rw [List.foldlM_cons, h2]
      exact hr

lemma score_hcc_fold_ok (t : RefTables) (model ml : String)
    (dxs hccs : List String) : ∃ r, score_hcc_fold t model ml dxs hccs = .ok r := by
  unfold score_hcc_fold
  apply foldlM_all_ok
  intro st hcc
  dsimp only
  split
  · rw [construct_hcc_ok]; exact ⟨_, rfl⟩
  · exact ⟨st, rfl⟩

lemma score_group_fold_ok (t : RefTables) (model ml : String)
    (grouped : Finset String) (groups : List String) (st0 : ScoreAcc) :
    ∃ r, score_group_fold t model ml grouped groups st0 = .ok r := by
  unfold score_group_fold
  apply foldlM_all_ok
  intro st g
  dsimp only
  split
  · rw [construct_group_ok]; exact ⟨_, rfl⟩
  · exact ⟨st, rfl⟩

lemma score_rxc_fold_ok (t : RefTables) (model ml : String)
    (ndcs rxcs : List String) : ∃ r, score_rxc_fold t model ml ndcs rxcs = .ok r := by
  unfold score_rxc_fold
  apply foldlM_all_ok
  intro st rxc
  dsimp only
  split
  · rw [construct_rxc_ok]; exact ⟨_, rfl⟩
  · exact ⟨st, rfl⟩

lemma score_edf_step_not_adult (t : RefTables) (model ml : String) (em : Int)
    (cnt : Nat) (st : ScoreAcc) (h : model ≠ "Adult") :
    score_edf_step t model ml em cnt st = .ok (st, none, 0) := by
  unfold score_edf_step
  rw [if_neg h]
  rfl

lemma score_edf_step_zero_cnt (t : RefTables) (model ml : String) (em : Int)
    (st : ScoreAcc) : score_edf_step t model ml em 0 st = .ok (st, none, 0) := by
  unfold score_edf_step
  split
  · dsimp only
    rw [if_neg (fun hcond => absurd hcond.2.2 (lt_irrefl 0))]
    rfl
  · rfl

lemma map_diagnoses_to_ccs_nil (icd : List (String × List String)) :
    map_diagnoses_to_ccs icd [] = ∅ := by
  simp [map_diagnoses_to_ccs]

lemma apply_hierarchies_empty (H : List (String × List String)) :
    apply_hierarchies H ∅ = ∅ :=
  Finset.subset_empty.mp (apply_hierarchies_subset H ∅)

lemma apply_rxc_hierarchies_empty (H : List (String × List String)) :
    apply_rxc_hierarchies H ∅ = ∅ := by
  rw [rxc_hier_eq]; exact apply_hierarchies_empty H

lemma exclude_model_hccs_empty (ex : List (String × List String)) (model : String) :
    exclude_model_hccs ex ∅ model = ∅ := by
  simp [exclude_model_hccs]

lemma groupFold_empty_fst (G : List (String × List String)) :
    ∀ tr, groupFold G (∅, tr) = (∅, tr) := by
  induction G with
  | nil => intro tr; rfl
  | cons e T ih =>
      intro tr
      have hc : (e.2.any fun h => decide (h ∈ (∅ : Finset String))) = false := by
        simp
      have hstep : groupStep (∅, tr) e = (∅, tr) := by
        unfold groupStep
        rw [hc]
        rfl
      have h1 : groupFold (e :: T) (∅, tr) = groupFold T (groupStep (∅, tr) e) := rfl
      rw [h1, hstep]
      exact ih tr

lemma apply_groupings_empty (G : List (String × List String)) (model : String) :
    apply_groupings G ∅ model = (∅, ∅) := by
  unfold apply_groupings
  split
  · rfl
  · exact groupFold_empty_fst G ∅

lemma apply_groupings_infant (G : List (String × List String)) (hccs : Finset String) :
    apply_groupings G hccs "Infant" = (hccs, ∅) := by
  unfold apply_groupings
  rw [if_pos rfl]

lemma map_ndcs_to_rxcs_nil (m : List (String × List String)) :
    map_ndcs_to_rxcs m [] = ∅ := rfl

lemma sortStr_empty : sortStr ∅ = [] := rfl

lemma score_hcc_fold_nil (t : RefTables) (model ml : String) (dxs : List String) :
    score_hcc_fold t model ml dxs [] = .ok (0, [], []) := rfl

lemma score_group_fold_nil (t : RefTables) (model ml : String)
    (grouped : Finset String) (st0 : ScoreAcc) :
    score_group_fold t model ml grouped [] st0 = .ok st0 := rfl

lemma score_rxc_fold_nil (t : RefTables) (model ml : String) (ndcs : List String) :
    score_rxc_fold t model ml ndcs [] = .ok (0, [], []) := rfl

lemma ok_bind {a : Type} {b : Type} (x : a) (f : a → Except String b) :
    (Except.ok x >>= f) = f x := rfl

lemma pure_eq_ok {a : Type} (x : a) : (pure x : Except String a) = Except.ok x := rfl

/-- C6: a valid member with no diagnoses and no drug codes scores exactly the
demographic factor — zero HCC score, zero RXC score, empty HCC list, no EDF
contribution, and `risk_score = demographic_factor`, against every
reference-table set. -/
theorem C6_demographic_only (t : RefTables) (y : Int) (member : MemberInput)
    (py : Option Int) (hdx : member.diagnoses = []) (hndc : member.ndc_codes = []) :
    ∃ out, score t y member py = Except.ok out ∧
      out.details.hcc_score = 0 ∧ out.details.rxc_score = 0 ∧
      out.hcc_list = [] ∧ out.details.edf_variable = none ∧
      out.details.edf_factor = 0 ∧
      out.risk_score = out.details.demographic_factor := by
  unfold score
  rw [hdx, hndc]
  simp only [map_diagnoses_to_ccs_nil, apply_hierarchies_empty,
    exclude_model_hccs_empty, apply_groupings_empty, map_ndcs_to_rxcs_nil,
    apply_rxc_hierarchies_empty, sortStr_empty, score_hcc_fold_nil,
    score_group_fold_nil, score_rxc_fold_nil, construct_demographic_ok,
    Finset.card_empty, Nat.add_zero, score_edf_step_zero_cnt,
    List.append_nil, List.nil_append, add_zero, ok_bind, pure_eq_ok]
  exact ⟨_, rfl, rfl, rfl, rfl, rfl, rfl, rfl⟩

/-- Witness for C6 at a concrete table set and member. -/
theorem C6_demographic_only_witness :
    demoOnlyMember.diagnoses = [] ∧ demoOnlyMember.ndc_codes = [] ∧
    (∃ out, score edfTables 2024 demoOnlyMember none = Except.ok out ∧
      out.details.hcc_score = 0 ∧ out.details.rxc_score = 0 ∧
      out.hcc_list = [] ∧ out.details.edf_variable = none ∧
      out.details.edf_factor = 0 ∧
      out.risk_score = out.details.demographic_factor) :=
  ⟨rfl, rfl, C6_demographic_only edfTables 2024 demoOnlyMember none rfl rfl⟩

lemma score_edf_step_infant (t : RefTables) (ml : String) (em : Int)
    (cnt : Nat) (st : ScoreAcc) :
    score_edf_step t "Infant" ml em cnt st = .ok (st, none, 0) :=
  score_edf_step_not_adult t "Infant" ml em cnt st (by decide)

/-- C10: a member born after December 31 of the benefit year gets a clamped
age of 0 and is scored (successfully) under the Infant model. -/
theorem C10_future_dob_infant (t : RefTables) (y : Int) (member : MemberInput)
    (py : Option Int) (hm : member.date_of_birth.month ≤ 12)
    (hd : member.date_of_birth.day ≤ 31)
    (hy : py.getD y < member.date_of_birth.year) :
    ∃ out, score t y member py = Except.ok out ∧
      out.details.age = 0 ∧ out.details.model = "Infant" := by
  have hage : calculate_age member.date_of_birth ⟨py.getD y, 12, 31⟩ = 0 := by
    revert hy
    generalize py.getD y = ty
    intro hy2
    unfold calculate_age
    dsimp only
    rw [if_neg (by omega :
      ¬(12 < member.date_of_birth.month ∨
        (12 = member.date_of_birth.month ∧ 31 < member.date_of_birth.day)))]
    exact max_eq_left (by omega)
  have hmt : get_model_type 0 = "Infant" := rfl
  obtain ⟨st1, h1⟩ := score_hcc_fold_ok t "Infant" member.metal_level
    member.diagnoses
    (sortStr (exclude_model_hccs t.exclusions
      (apply_hierarchies t.hierarchies
        (map_diagnoses_to_ccs t.icd_to_cc member.diagnoses)) "Infant"))
  obtain ⟨st4, h4⟩ := score_rxc_fold_ok t "Infant" member.metal_level
    member.ndc_codes
    (sortStr (apply_rxc_hierarchies t.rxc_hierarchies
      (map_ndcs_to_rxcs t.ndc_to_rxc member.ndc_codes)))
  unfold score
  simp only [hage, hmt, construct_demographic_ok, ok_bind, pure_eq_ok,
    apply_groupings_infant, sortStr_empty, score_group_fold_nil,
    score_edf_step_infant, h1, h4]
  exact ⟨_, rfl, rfl, rfl⟩

/-- Witness for C10 at a concrete member born in 2030, scored for 2024. -/
theorem C10_future_dob_infant_witness :
    futureMember.date_of_birth.month ≤ 12 ∧ futureMember.date_of_birth.day ≤ 31 ∧
    (none : Option Int).getD 2024 < futureMember.date_of_birth.year ∧
    (∃ out, score edfTables 2024 futureMember none = Except.ok out ∧
      out.details.age = 0 ∧ out.details.model = "Infant") :=
  ⟨by decide, by decide, by decide,
    C10_future_dob_infant edfTables 2024 futureMember none (by decide) (by decide)
      (by decide)⟩

lemma dx_ccs_toFinset (icd : List (String × List String)) (dx : String) :
    (dx_ccs icd dx).toFinset = spec_code_ccs icd dx := by
  unfold dx_ccs spec_code_ccs
  dsimp only
  cases h1 : dictGet (pyUpper (pyReplace dx "." "")) icd with
  | some ccs => rfl
  | none =>
      cases h2 : [6, 5, 4, 3].findSome?
          (fun n => dictGet (pyTake (pyUpper (pyReplace dx "." "")) n) icd) with
      | some ccs => rfl
      | none => rfl

lemma foldl_union_eq (f : String → Finset String) (l : List String) :
    ∀ S : Finset String,
      l.foldl (fun acc dx => acc ∪ f dx) S =
        S ∪ l.foldr (fun dx acc => f dx ∪ acc) ∅ := by
  induction l with
  | nil => intro S; simp
  | cons d tl ih =>
      intro S
      rw [List.foldl_cons, List.foldr_cons, ih (S ∪ f d), Finset.union_assoc]

lemma image_foldr_union (f : String → Finset String) (l : List String) :
    (l.foldr (fun dx acc => f dx ∪ acc) ∅).image normalize_cc =
      l.foldr (fun dx acc => (f dx).image normalize_cc ∪ acc) ∅ := by
  induction l with
  | nil => simp
  | cons d tl ih => rw [List.foldr_cons, List.foldr_cons, Finset.image_union, ih]

/-- C9: the diagnosis mapper of the code equals the spec's description —
per-code normalization, exact match with 6/5/4/3 prefix fallback, silent
misses, and a normalized union. -/
theorem C9_diagnosis_mapping (icd : List (String × List String))
    (diagnoses : List String) :
    map_diagnoses_to_ccs icd diagnoses = map_diagnoses_spec icd diagnoses := by
  unfold map_diagnoses_to_ccs map_diagnoses_spec
  dsimp only
  rw [foldl_union_eq (fun dx => (dx_ccs icd dx).toFinset) diagnoses ∅,
    Finset.empty_union, image_foldr_union]
  simp only [dx_ccs_toFinset]

set_option maxRecDepth 4000 in
/-- C1: the scoring pipeline raises mid-call on a valid member — an Adult
with 6 enrollment months and one payment HCC whose tables carry a non-zero
HCC_ED6 coefficient makes `score` construct a ScoreComponent with
`component_type = "edf"`, which the pattern of models.py line 22 rejects
(pydantic ValidationError), even though the member passed validation. -/
theorem C1_edf_component_raises :
    MemberInput.construct "EDF001" ⟨1980, 1, 1⟩ "M" "silver" ["K5000"] [] 6 =
      Except.ok edfMember ∧
    score edfTables 2024 edfMember none =
      Except.error "ValidationError: component_type" := by
  constructor
  · with_unfolding_all decide
  · with_unfolding_all decide

set_option maxRecDepth 4000 in
/-- C2: an Adult member with enrollment_months = 3, one payment HCC and a
non-zero HCC_ED3 coefficient does not get the claimed EDF-carrying output —
scoring raises while recording the EDF audit component ("edf" fails the
component_type pattern); the same member with 12 months scores fine with no
EDF contribution. -/
theorem C2_edf_gating_bug :
    MemberInput.construct "EDF003" ⟨1980, 1, 1⟩ "F" "bronze" ["E1165"] [] 3 =
      Except.ok edf3Member ∧
    score edfTables3 2024 edf3Member none =
      Except.error "ValidationError: component_type" ∧
    (score edfTables3 2024 edf12Member none).map
      (fun o => (o.details.edf_variable, o.details.edf_factor)) =
        Except.ok (none, 0) := by
  refine ⟨by with_unfolding_all decide, by with_unfolding_all decide, ?_⟩
  with_unfolding_all decide

/-- C3 counterexample: the claim fails on the code in two ways — (a)
`MemberInput` construction succeeds for a metal tier outside the enumerated
set (`metal_level` carries no validation), and (b) the constructed value is
not immutable thereafter: the model is not frozen, so pydantic attribute
assignment on it succeeds and yields a value differing from the original. -/
theorem C3_claim_counterexample :
    ((MemberInput.construct "M001" ⟨1980, 1, 1⟩ "M" "copper" [] [] 12).isOk = true ∧
      "copper" ∉ ["platinum", "gold", "silver", "bronze", "catastrophic"]) ∧
    (MemberInput.setattr_gender
        ⟨"M001", ⟨1980, 1, 1⟩, "M", "copper", [], [], 12⟩ "F" =
          .ok ⟨"M001", ⟨1980, 1, 1⟩, "F", "copper", [], [], 12⟩ ∧
      (⟨"M001", ⟨1980, 1, 1⟩, "F", "copper", [], [], 12⟩ : MemberInput) ≠
        ⟨"M001", ⟨1980, 1, 1⟩, "M", "copper", [], [], 12⟩) := by
  decide

/-- C3 amended: construction fails (ValidationError) if and only if the sex
code is not M/F or the enrollment months lie outside 1..12 — the metal tier
is not constrained — and every input well-formed in that sense constructs
successfully; the constructed value is not enforced immutable: the model is
not frozen, so pydantic attribute assignment on it always succeeds,
replacing the field. -/
theorem C3_validation_iff (member_id : String) (dob : PyDate)
    (gender metal_level : String) (diagnoses ndc_codes : List String) (em : Int) :
    ((MemberInput.construct member_id dob gender metal_level diagnoses
        ndc_codes em).isOk = true ↔
      ((gender = "M" ∨ gender = "F") ∧ 1 ≤ em ∧ em ≤ 12)) ∧
    (∀ (m : MemberInput) (v : String),
      MemberInput.setattr_gender m v = .ok { m with gender := v }) := by
  constructor
  · unfold MemberInput.construct
    split
    case isTrue h => simp [Except.isOk, Except.toBool, h]
    case isFalse h => simp [Except.isOk, Except.toBool, h]
  · intro m v
    rfl

lemma dictGet_map_set {β : Type} (k : String) (v : β) :
    ∀ m : List (String × β), k ∈ m.map Prod.fst →
      dictGet k (m.map fun p => if p.1 = k then (k, v) else p) = some v := by
  intro m
  induction m with
  | nil => intro h; cases h
  | cons p t ih =>
      intro h
      rcases p with ⟨k1, v1⟩
      rw [List.map_cons] at h ⊢
      by_cases h1 : k1 = k
      · dsimp only
        rw [if_pos h1]
        simp [dictGet]
      · dsimp only
        rw [if_neg h1]
        unfold dictGet
        rw [if_neg h1]
        apply ih
        rcases List.mem_cons.mp h with h2 | h2
        · exact absurd h2.symm h1
        · exact h2

lemma dictGet_append_new {β : Type} (k : String) (v : β) :
    ∀ m : List (String × β), k ∉ m.map Prod.fst →
      dictGet k (m ++ [(k, v)]) = some v := by
  intro m
  induction m with
  | nil =>
      intro _
      show dictGet k [(k, v)] = some v
      simp [dictGet]
  | cons p t ih =>
      intro h
      rcases p with ⟨k1, v1⟩
      rw [List.map_cons] at h
      rw [List.cons_append]
      unfold dictGet
      rw [if_neg (fun h1 => h (List.mem_cons.mpr (Or.inl h1.symm)))]
      exact ih (fun h2 => h (List.mem_cons_of_mem _ h2))

lemma dictGet_dictSet {β : Type} (m : List (String × β)) (k : String) (v : β) :
    dictGet k (dictSet m k v) = some v := by
  unfold dictSet
  split
  case isTrue h => exact dictGet_map_set k v m h
  case isFalse h => exact dictGet_append_new k v m h

/-- C8: loading the ICD→CC reference table for a model year fails exactly
when no table set exists for that year; a successful load is cached under
its model-year key, and a repeated load returns the identical structure from
the cache without consulting the environment again; `clear_cache` drops
every cached table. -/
theorem C8_table_loading (env : TablesEnv) (y : String) :
    (y ∉ env.years_available →
      load_icd_to_cc env [] y =
        .error ("FileNotFoundError: DIY tables not found for model year " ++ y)) ∧
    (y ∈ env.years_available →
      load_icd_to_cc env [] y =
        .ok (parse_table_3 (env.table_3 y),
          [("icd_to_cc_" ++ y, parse_table_3 (env.table_3 y))])) ∧
    (∀ (cache : LoaderCache) (m : List (String × List String))
        (cache2 : LoaderCache),
      load_icd_to_cc env cache y = .ok (m, cache2) →
      ∀ env2 : TablesEnv, load_icd_to_cc env2 cache2 y = .ok (m, cache2)) ∧
    (∀ cache : LoaderCache, clear_cache cache = [] ∧
      dictGet ("icd_to_cc_" ++ y) (clear_cache cache) = none) := by
  refine ⟨?_, ?_, ?_, fun cache => ⟨rfl, rfl⟩⟩
  · intro h
    unfold load_icd_to_cc get_tables_dir
    dsimp only [dictGet]
    rw [if_neg h]
    rfl
  · intro h
    unfold load_icd_to_cc get_tables_dir
    dsimp only [dictGet]
    rw [if_pos h]
    rfl
  · intro cache m cache2 hload env2
    unfold load_icd_to_cc at hload ⊢
    dsimp only at hload ⊢
    cases hget : dictGet ("icd_to_cc_" ++ y) cache with
    | some v =>
        rw [hget] at hload
        injection hload with h2
        injection h2 with hm hc
        subst hm
        subst hc
        rw [hget]
    | none =>
        rw [hget] at hload
        unfold get_tables_dir at hload
        by_cases hy : y ∈ env.years_available
        · rw [if_pos hy] at hload
          dsimp only at hload
          injection hload with h2
          injection h2 with hm hc
          subst hm
          subst hc
          rw [dictGet_dictSet]
        · rw [if_neg hy] at hload
          have hload2 : Except.error
              ("FileNotFoundError: DIY tables not found for model year " ++ y) =
              Except.ok (m, cache2) := hload
          exact Except.noConfusion hload2

/-- Witness for C8: a year with no tables fails, 2024 loads to the parsed
map and caches it, a second load from the cache succeeds against an
environment with no tables at all, clearing empties the cache. -/
theorem C8_table_loading_witness :
    ("1999" ∉ loaderEnvA.years_available ∧
      load_icd_to_cc loaderEnvA [] "1999" =
        .error "FileNotFoundError: DIY tables not found for model year 1999") ∧
    ("2024" ∈ loaderEnvA.years_available ∧
      load_icd_to_cc loaderEnvA [] "2024" =
        .ok ([("E1165", ["21"])], [("icd_to_cc_2024", [("E1165", ["21"])])])) ∧
    load_icd_to_cc loaderEnvEmpty
        [("icd_to_cc_2024", [("E1165", ["21"])])] "2024" =
      .ok ([("E1165", ["21"])], [("icd_to_cc_2024", [("E1165", ["21"])])]) ∧
    clear_cache [("icd_to_cc_2024", [("E1165", ["21"])])] = [] := by
  refine ⟨⟨by decide, ?_⟩, ⟨by decide, ?_⟩, ?_, rfl⟩
  · exact (C8_table_loading loaderEnvA "1999").1 (by decide)
  · have h := (C8_table_loading loaderEnvA "2024").2.1 (by decide)
    rw [h]
    with_unfolding_all decide
  · exact (C8_table_loading loaderEnvA "2024").2.2.1 []
      [("E1165", ["21"])] [("icd_to_cc_2024", [("E1165", ["21"])])]
      (by with_unfolding_all decide) loaderEnvEmpty

end Prism
